import Mathlib

/-!
Verification of the HTTP/1 response head encoder and transfer-encoding state
machine of `actix-server-alt` (`src/actix-http-alt/src/h1/proto/encode.rs` and
`context.rs`), shallowly embedded in Lean 4.

Bytes are modelled as `Nat`s and byte buffers as `List Nat`; the `Flat`
(contiguous `BytesMut`) mode of the write buffer is embedded, with
`put_slice` becoming list append.  The `List` (segmented) mode pushes the
same byte sequences as fragments, so every byte-level statement below covers
both modes.  Header names are modelled by the `HeaderName` inductive: the
`http` crate normalizes names to lowercase, so the standard constants
`CONTENT_LENGTH`, `TRANSFER_ENCODING`, `CONNECTION`, `DATE` become dedicated
constructors and all other names carry their (lowercase) bytes.
-/

namespace H1

/-- Bytes of an ASCII string literal. -/
def strBytes (s : String) : List Nat := s.toList.map Char.toNat

/-- The CRLF line terminator bytes. -/
def crlf : List Nat := strBytes "\r\n"

/-- `ConnectionType` from `h1/proto/context.rs`. -/
inductive ConnectionType where
  | init
  | close
  | keepAlive
  | upgrade
deriving DecidableEq, Repr

/-- `Context` from `h1/proto/context.rs`.  `state` is the `ContextState` u8
bit-set (bit 1 = EXPECT, bit 2 = CONNECT, bit 4 = FORCE_CLOSE); `dateVal` is
the byte slice `self.date.get().date()` of the shared clock cache as read at
encode time.  The `header_cache` field only recycles an allocation and holds
no observable bytes, so it is omitted. -/
structure Context where
  state : Nat
  ctype : ConnectionType
  dateVal : List Nat
deriving DecidableEq, Repr

/-- `Context::is_expect_header`. -/
def Context.isExpectHeader (c : Context) : Bool := c.state &&& 1 == 1

/-- `Context::is_connect_method`. -/
def Context.isConnectMethod (c : Context) : Bool := c.state &&& 2 == 2

/-- `Context::is_force_close`. -/
def Context.isForceClose (c : Context) : Bool := c.state &&& 4 == 4

/-- `Context::reset`: sets the connection type to `KeepAlive` and zeroes the
flag bit-set. -/
def Context.reset (c : Context) : Context :=
  { c with ctype := ConnectionType.keepAlive, state := 0 }

/-- `Context::set_ctype`. -/
def Context.setCtype (c : Context) (t : ConnectionType) : Context :=
  { c with ctype := t }

/-- Header names as drained from the `http` crate's `HeaderMap`; standard
names are lowercase constants. -/
inductive HeaderName where
  | contentLength
  | transferEncoding
  | connection
  | date
  | other (bytes : List Nat)
deriving DecidableEq, Repr

/-- `HeaderName::as_str` (as bytes); the `http` crate keeps names lowercase. -/
def HeaderName.asStr : HeaderName → List Nat
  | .contentLength => strBytes "content-length"
  | .transferEncoding => strBytes "transfer-encoding"
  | .connection => strBytes "connection"
  | .date => strBytes "date"
  | .other bs => bs

/-- HTTP versions distinguished by `encode_version_status_reason`. -/
inductive Version where
  | http10
  | http11
  | otherVersion
deriving DecidableEq, Repr

/-- `http::response::Parts`: version, status code (as its numeric value) and
the ordered header collection that `drain()` yields. -/
structure Parts where
  version : Version
  status : Nat
  headers : List (HeaderName × List Nat)
deriving DecidableEq, Repr

/-- `ResponseBodySize` from `crate::body`: the body-size hint. -/
inductive ResponseBodySize where
  | none
  | stream
  | sized (n : Nat)
deriving DecidableEq, Repr

/-- The two `Parse` error variants `encode_head_inner` can surface. -/
inductive Parse where
  | statusCode
  | headerValue
deriving DecidableEq, Repr

/-- `StatusCode::is_success`: 2xx. -/
def isSuccess (s : Nat) : Bool := decide (200 ≤ s ∧ s < 300)

/-- `StatusCode::is_informational`: 1xx. -/
def isInformational (s : Nat) : Bool := decide (100 ≤ s ∧ s < 200)

/-- `StatusCode::canonical_reason` for the registered status codes (the
`http` crate's table); unknown codes yield `[]` here and the encoder then
prints the literal `<none>`. -/
def canonicalReasonTable : Nat → Option String
  | 100 => some "Continue"
  | 101 => some "Switching Protocols"
  | 102 => some "Processing"
  | 200 => some "OK"
  | 201 => some "Created"
  | 202 => some "Accepted"
  | 203 => some "Non Authoritative Information"
  | 204 => some "No Content"
  | 205 => some "Reset Content"
  | 206 => some "Partial Content"
  | 207 => some "Multi-Status"
  | 208 => some "Already Reported"
  | 226 => some "IM Used"
  | 300 => some "Multiple Choices"
  | 301 => some "Moved Permanently"
  | 302 => some "Found"
  | 303 => some "See Other"
  | 304 => some "Not Modified"
  | 305 => some "Use Proxy"
  | 307 => some "Temporary Redirect"
  | 308 => some "Permanent Redirect"
  | 400 => some "Bad Request"
  | 401 => some "Unauthorized"
  | 402 => some "Payment Required"
  | 403 => some "Forbidden"
  | 404 => some "Not Found"
  | 405 => some "Method Not Allowed"
  | 406 => some "Not Acceptable"
  | 407 => some "Proxy Authentication Required"
  | 408 => some "Request Timeout"
  | 409 => some "Conflict"
  | 410 => some "Gone"
  | 411 => some "Length Required"
  | 412 => some "Precondition Failed"
  | 413 => some "Payload Too Large"
  | 414 => some "URI Too Long"
  | 415 => some "Unsupported Media Type"
  | 416 => some "Range Not Satisfiable"
  | 417 => some "Expectation Failed"
  | 418 => some "I'm a teapot"
  | 421 => some "Misdirected Request"
  | 422 => some "Unprocessable Entity"
  | 423 => some "Locked"
  | 424 => some "Failed Dependency"
  | 426 => some "Upgrade Required"
  | 428 => some "Precondition Required"
  | 429 => some "Too Many Requests"
  | 431 => some "Request Header Fields Too Large"
  | 451 => some "Unavailable For Legal Reasons"
  | 500 => some "Internal Server Error"
  | 501 => some "Not Implemented"
  | 502 => some "Bad Gateway"
  | 503 => some "Service Unavailable"
  | 504 => some "Gateway Timeout"
  | 505 => some "HTTP Version Not Supported"
  | 506 => some "Variant Also Negotiates"
  | 507 => some "Insufficient Storage"
  | 508 => some "Loop Detected"
  | 510 => some "Not Extended"
  | 511 => some "Network Authentication Required"
  | _ => Option.none

/-- `status.canonical_reason().unwrap_or("<none>")` as bytes. -/
def canonicalReason (s : Nat) : List Nat :=
  match canonicalReasonTable s with
  | some r => strBytes r
  | Option.none => strBytes "<none>"

/-- `StatusCode::as_str` as bytes (decimal digits). -/
def statusBytes (s : Nat) : List Nat := strBytes (Nat.repr s)

/-- `encode_version_status_reason` (encode.rs lines 155-180): the status
line, with a fast path for `HTTP/1.1 200 OK`. -/
def encodeVersionStatusReason (v : Version) (s : Nat) : List Nat :=
  if v = Version.http11 ∧ s = 200 then strBytes "HTTP/1.1 200 OK\r\n"
  else
    (match v with
     | Version.http10 => strBytes "HTTP/1.0 "
     | Version.http11 => strBytes "HTTP/1.1 "
     | Version.otherVersion => strBytes "HTTP/1.1 ") ++
    statusBytes s ++ strBytes " " ++ canonicalReason s ++ crlf

/-- `HeaderValue::to_str` succeeds iff every byte is visible ASCII
(`32 ≤ b < 127`) or horizontal tab. -/
def toStrOk (v : List Nat) : Bool := v.all fun b => b == 9 || (32 ≤ b && b < 127)

/-- Rust `str::split(',')` semantics on bytes: the comma-separated groups,
with empty groups preserved (an empty input yields one empty group). -/
def splitOn (sep : Nat) : List Nat → List (List Nat)
  | [] => [[]]
  | b :: rest =>
    if b = sep then [] :: splitOn sep rest
    else
      match splitOn sep rest with
      | [] => [[b]]
      | g :: gs => (b :: g) :: gs

/-- ASCII whitespace bytes relevant to `str::trim` (only tab and space can
survive `HeaderValue::to_str`, but the full ASCII set is recognized). -/
def isWsByte (b : Nat) : Bool := b == 9 || b == 10 || b == 11 || b == 12 || b == 13 || b == 32

/-- Rust `str::trim` on bytes. -/
def trimBytes (l : List Nat) : List Nat :=
  ((l.dropWhile isWsByte).reverse.dropWhile isWsByte).reverse

/-- ASCII lowercasing of one byte. -/
def lowerByte (b : Nat) : Nat := if 65 ≤ b ∧ b ≤ 90 then b + 32 else b

/-- `str::eq_ignore_ascii_case` on bytes. -/
def eqIgnoreAsciiCase (a b : List Nat) : Bool :=
  a.map lowerByte == b.map lowerByte

/-- The body of the `Connection`-token scan (encode.rs lines 101-107): a
trimmed token updates the connection type on a case-insensitive match with
`close` / `keep-alive` / `upgrade`, else leaves it unchanged. -/
def connUpdate (c : ConnectionType) (t : List Nat) : ConnectionType :=
  if eqIgnoreAsciiCase t (strBytes "close") then ConnectionType.close
  else if eqIgnoreAsciiCase t (strBytes "keep-alive") then ConnectionType.keepAlive
  else if eqIgnoreAsciiCase t (strBytes "upgrade") then ConnectionType.upgrade
  else c

/-- The full `Connection` header value scan: split on commas, trim each
token, fold the updates left to right (encode.rs lines 98-108). -/
def scanConnectionValue (c : ConnectionType) (v : List Nat) : ConnectionType :=
  (splitOn 44 v).foldl (fun c raw => connUpdate c (trimBytes raw)) c

/-- One serialized header line `name: value\r\n` (encode.rs lines 114-117). -/
def renderHeader (h : HeaderName × List Nat) : List Nat :=
  h.1.asStr ++ strBytes ": " ++ h.2 ++ crlf

/-- Result of draining the header collection: bytes appended so far, the
`skip_len` / `skip_date` flags, the updated context, and the error if the
loop aborted early. -/
structure DrainResult where
  buf : List Nat
  skipLen : Bool
  skipDate : Bool
  ctx : Context
  err : Option Parse
deriving DecidableEq, Repr

/-- The header-drain loop of `encode_head_inner` (encode.rs lines 83-118):
`Content-Length`/`Transfer-Encoding` set `skip_len` (the release build skips
the `debug_assert`), a `Connection` header is dropped under force-close and
otherwise token-scanned after a `to_str` validity check, `Date` sets
`skip_date`, and every non-dropped header is serialized verbatim. -/
def processHeaders (ctx : Context) (sl sd : Bool) (buf : List Nat) :
    List (HeaderName × List Nat) → DrainResult
  | [] => ⟨buf, sl, sd, ctx, Option.none⟩
  | (n, v) :: rest =>
    match n with
    | HeaderName.contentLength =>
        processHeaders ctx true sd (buf ++ renderHeader (n, v)) rest
    | HeaderName.transferEncoding =>
        processHeaders ctx true sd (buf ++ renderHeader (n, v)) rest
    | HeaderName.connection =>
        if ctx.isForceClose then processHeaders ctx sl sd buf rest
        else if toStrOk v then
          processHeaders (ctx.setCtype (scanConnectionValue ctx.ctype v)) sl sd
            (buf ++ renderHeader (n, v)) rest
        else ⟨buf, sl, sd, ctx, some Parse.headerValue⟩
    | HeaderName.date =>
        processHeaders ctx sl true (buf ++ renderHeader (n, v)) rest
    | HeaderName.other _ =>
        processHeaders ctx sl sd (buf ++ renderHeader (n, v)) rest

/-- The framing line synthesized from the body-size hint when `skip_len` is
not set (encode.rs lines 125-136); `itoa` prints the length in decimal. -/
def framingSeg : ResponseBodySize → List Nat
  | ResponseBodySize.none => []
  | ResponseBodySize.stream => strBytes "transfer-encoding: chunked\r\n"
  | ResponseBodySize.sized n =>
      strBytes "content-length: " ++ strBytes (Nat.repr n) ++ crlf

/-- Result of `encode_head_inner`: the final buffer contents, the mutated
context and the error, if any (the buffer keeps whatever was appended before
the failure point, matching the `&mut BytesMut` semantics). -/
structure EncodeResult where
  buf : List Nat
  ctx : Context
  err : Option Parse
deriving DecidableEq, Repr

/-- The tail of `encode_head_inner` after the `skip_len` decision: status
line, header drain, synthesized `connection: close`, framing line, date
line/blank line (encode.rs lines 79-151). -/
def encodeHeadRest (ctx : Context) (parts : Parts) (size : ResponseBodySize)
    (buf : List Nat) (skipLen0 : Bool) : EncodeResult :=
  let buf1 := buf ++ encodeVersionStatusReason parts.version parts.status
  let d := processHeaders ctx skipLen0 false buf1 parts.headers
  match d.err with
  | some e => ⟨d.buf, d.ctx, some e⟩
  | Option.none =>
    let buf2 := if d.ctx.isForceClose then d.buf ++ strBytes "connection: close\r\n" else d.buf
    let buf3 := if d.skipLen then buf2 else buf2 ++ framingSeg size
    let buf4 :=
      if d.skipDate then buf3 ++ crlf
      else buf3 ++ strBytes "date: " ++ d.ctx.dateVal ++ strBytes "\r\n\r\n"
    ⟨buf4, d.ctx, Option.none⟩

/-- `encode_head_inner` (encode.rs lines 51-152): the `skip_len` decision of
lines 61-71 (101 passes with `skip_len = false`; CONNECT + 2xx sets it; any
other 1xx is rejected with a status-code parse error before any byte is
appended), then the serialization tail. -/
def encodeHeadInner (ctx : Context) (parts : Parts) (size : ResponseBodySize)
    (buf : List Nat) : EncodeResult :=
  if parts.status = 101 then encodeHeadRest ctx parts size buf false
  else if ctx.isConnectMethod && isSuccess parts.status then
    encodeHeadRest ctx parts size buf true
  else if isInformational parts.status then ⟨buf, ctx, some Parse.statusCode⟩
  else encodeHeadRest ctx parts size buf false

/-- `encode_head` (encode.rs lines 30-49).  In `Flat` mode it is exactly
`encode_head_inner`; in `List` mode the same bytes are written to a scratch
buffer and pushed as one fragment, so the appended byte sequence is the
same. -/
def encodeHead (ctx : Context) (parts : Parts) (size : ResponseBodySize)
    (buf : List Nat) : EncodeResult :=
  encodeHeadInner ctx parts size buf

/-- Modelled from the spec: the `Kind` enum lives in `h1/proto/codec.rs`,
which is not among the provided sources; spec §3 lists the four variants the
encoder uses — `Eof`, `PlainChunked`, `Chunked{finished}` (named
`EncodeChunked` at the use sites in encode.rs) and `Length{remaining}`.
The decoder-side variants behind the `unreachable!` arms are omitted. -/
inductive Kind where
  | eof
  | plainChunked
  | encodeChunked (finished : Bool)
  | length (remaining : Nat)
deriving DecidableEq, Repr

/-- `TransferEncoding` (encode.rs lines 207-210): a wrapper around `Kind`. -/
structure TransferEncoding where
  kind : Kind
deriving DecidableEq, Repr

/-- `TransferEncoding::eof`. -/
def TransferEncoding.mkEof : TransferEncoding := ⟨Kind.eof⟩

/-- `TransferEncoding::chunked`. -/
def TransferEncoding.chunked : TransferEncoding := ⟨Kind.encodeChunked false⟩

/-- `TransferEncoding::plain_chunked`. -/
def TransferEncoding.plainChunked : TransferEncoding := ⟨Kind.plainChunked⟩

/-- `TransferEncoding::length`. -/
def TransferEncoding.length (n : Nat) : TransferEncoding := ⟨Kind.length n⟩

/-- Uppercase hex digit byte for a value below 16 (`{:X}` formatting). -/
def hexDigitByte (m : Nat) : Nat := if m < 10 then m + 48 else m + 55

/-- Fueled most-significant-first uppercase hex rendering; `fuel > n`
always suffices since the argument strictly decreases. -/
def hexUpperFueled : Nat → Nat → List Nat
  | 0, _ => []
  | fuel + 1, n =>
    if n < 16 then [hexDigitByte n]
    else hexUpperFueled fuel (n / 16) ++ [hexDigitByte (n % 16)]

/-- Rust `{:X}` formatting of a `usize`: uppercase hex, no leading zeros. -/
def hexUpper (n : Nat) : List Nat := hexUpperFueled (n + 1) n

/-- Result of one `TransferEncoding::encode` call: the updated encoder, the
bytes appended to the write buffer, and the returned `EOF` flag (the call
never errors on the four encoder variants). -/
structure EncodeStep where
  te : TransferEncoding
  out : List Nat
  isEof : Bool
deriving DecidableEq, Repr

/-- `TransferEncoding::encode` (encode.rs lines 241-328), `Flat` buffer
mode; the `List` mode emits the same byte sequences as fragments (for a
chunk the `format!` hex line equals the `writeln!` hex line byte for
byte). -/
def TransferEncoding.encode (t : TransferEncoding) (msg : List Nat) : EncodeStep :=
  match t.kind with
  | Kind.eof => ⟨⟨Kind.eof⟩, msg, msg.isEmpty⟩
  | Kind.plainChunked => ⟨⟨Kind.plainChunked⟩, msg, msg.isEmpty⟩
  | Kind.encodeChunked finished =>
    if finished then ⟨⟨Kind.encodeChunked true⟩, [], true⟩
    else if msg.isEmpty then ⟨⟨Kind.encodeChunked true⟩, strBytes "0\r\n\r\n", true⟩
    else ⟨⟨Kind.encodeChunked false⟩, hexUpper msg.length ++ crlf ++ msg ++ crlf, false⟩
  | Kind.length remaining =>
    if remaining > 0 then
      if msg.isEmpty then ⟨⟨Kind.length remaining⟩, [], false⟩
      else
        let len := min remaining msg.length
        ⟨⟨Kind.length (remaining - len)⟩, msg.take len, remaining - len == 0⟩
    else ⟨⟨Kind.length remaining⟩, [], true⟩

/-- Result of `TransferEncoding::encode_eof`: updated encoder, appended
bytes, and success; `ok = false` stands for the
`Err(io::Error::new(ErrorKind::UnexpectedEof, ""))` return. -/
structure EofStep where
  te : TransferEncoding
  out : List Nat
  ok : Bool
deriving DecidableEq, Repr

/-- `TransferEncoding::encode_eof` (encode.rs lines 332-357). -/
def TransferEncoding.encodeEof (t : TransferEncoding) : EofStep :=
  match t.kind with
  | Kind.eof => ⟨⟨Kind.eof⟩, [], true⟩
  | Kind.plainChunked => ⟨⟨Kind.plainChunked⟩, [], true⟩
  | Kind.length rem => ⟨⟨Kind.length rem⟩, [], rem == 0⟩
  | Kind.encodeChunked finished =>
    if finished then ⟨⟨Kind.encodeChunked true⟩, [], true⟩
    else ⟨⟨Kind.encodeChunked true⟩, strBytes "0\r\n\r\n", true⟩

/-- A sequence of `encode` calls: the final encoder state and the
concatenation of all bytes appended to the write buffer. -/
def runEncodes : TransferEncoding → List (List Nat) → TransferEncoding × List Nat
  | t, [] => (t, [])
  | t, c :: cs =>
    let st := t.encode c
    let r := runEncodes st.te cs
    (r.1, st.out ++ r.2)

/-- The wire bytes of one non-empty chunk: hex length, CRLF, payload, CRLF. -/
def encChunk (c : List Nat) : List Nat := hexUpper c.length ++ crlf ++ c ++ crlf

/-- A hexadecimal digit byte (either case), as a standard chunked decoder
accepts. -/
def isHexDigitByte (b : Nat) : Bool :=
  (48 ≤ b && b ≤ 57) || (65 ≤ b && b ≤ 70) || (97 ≤ b && b ≤ 102)

/-- Numeric value of a hex digit byte. -/
def hexDigitVal (b : Nat) : Nat :=
  if b ≤ 57 then b - 48 else if b ≤ 70 then b - 65 + 10 else b - 97 + 10

/-- Value of a most-significant-first hex digit string. -/
def hexVal (ds : List Nat) : Nat := ds.foldl (fun a d => a * 16 + hexDigitVal d) 0

/-- A standard chunked-transfer decoder (RFC 7230 §4.1, no extensions or
trailers): repeatedly read a hex size line, then that many payload bytes and
CRLF; a size of zero must be followed by the final CRLF and the end of
input.  Fuel bounds the number of chunks; one unit is spent per chunk. -/
def chunkedDecode : Nat → List Nat → Option (List Nat)
  | 0, _ => Option.none
  | fuel + 1, s =>
    let ds := s.takeWhile isHexDigitByte
    let rest := s.dropWhile isHexDigitByte
    if ds = [] then Option.none
    else
      match rest with
      | 13 :: 10 :: r =>
        let n := hexVal ds
        if n = 0 then (if r = crlf then some [] else Option.none)
        else
          match r.drop n with
          | 13 :: 10 :: r2 =>
            if (r.take n).length = n then (chunkedDecode fuel r2).map fun t => r.take n ++ t
            else Option.none
          | _ => Option.none
      | _ => Option.none

/-! ### Specification-side characterization functions

The following definitions restate, segment by segment, what the encoder is
claimed to produce; the theorems below prove the embedded code equal to
them. -/

/-- Does a header carry one of the two framing names? -/
def isFramingName (h : HeaderName × List Nat) : Bool :=
  match h.1 with
  | HeaderName.contentLength => true
  | HeaderName.transferEncoding => true
  | _ => false

/-- Is a header the `Date` header? -/
def isDateName (h : HeaderName × List Nat) : Bool :=
  match h.1 with
  | HeaderName.date => true
  | _ => false

/-- The header lines serialized by the drain loop: every header verbatim in
order, except that `Connection` headers are dropped when force-close is
set. -/
def renderHeaders (force : Bool) : List (HeaderName × List Nat) → List Nat
  | [] => []
  | h :: rest =>
    (if force ∧ h.1 = HeaderName.connection then [] else renderHeader h) ++
      renderHeaders force rest

/-- The synthesized `connection: close` line, present exactly under
force-close. -/
def closeSeg (force : Bool) : List Nat :=
  if force then strBytes "connection: close\r\n" else []

/-- The generated date segment: the `date:` line from the shared clock cache
value followed by the blank line ending the header block. -/
def dateSeg (ctx : Context) : List Nat :=
  strBytes "date: " ++ ctx.dateVal ++ strBytes "\r\n\r\n"

/-- The connection-type value after the drain loop: unchanged under
force-close, otherwise every `Connection` header's value scanned left to
right. -/
def scanAll (force : Bool) : ConnectionType → List (HeaderName × List Nat) → ConnectionType
  | c, [] => c
  | c, h :: rest =>
    scanAll force
      (if force = false ∧ h.1 = HeaderName.connection then scanConnectionValue c h.2 else c)
      rest

/-- The `skip_len` value chosen by the status/version match (encode.rs lines
61-71) on the non-error paths. -/
def initialSkipLen (ctx : Context) (status : Nat) : Bool :=
  if status = 101 then false else ctx.isConnectMethod && isSuccess status

/-- The trimmed comma-separated tokens of all `Connection` header values, in
scan order. -/
def connTokens : List (HeaderName × List Nat) → List (List Nat)
  | [] => []
  | h :: rest =>
    (if h.1 = HeaderName.connection then (splitOn 44 h.2).map trimBytes else []) ++
      connTokens rest

/-- The disposition a single trimmed token maps to, if it matches one of
`close` / `keep-alive` / `upgrade` case-insensitively. -/
def matchToken (t : List Nat) : Option ConnectionType :=
  if eqIgnoreAsciiCase t (strBytes "close") then some ConnectionType.close
  else if eqIgnoreAsciiCase t (strBytes "keep-alive") then some ConnectionType.keepAlive
  else if eqIgnoreAsciiCase t (strBytes "upgrade") then some ConnectionType.upgrade
  else Option.none

/-! ### Helper lemmas -/

theorem setCtype_isForceClose (c : Context) (t : ConnectionType) :
    (c.setCtype t).isForceClose = c.isForceClose := rfl

theorem setCtype_setCtype (c : Context) (t u : ConnectionType) :
    (c.setCtype t).setCtype u = c.setCtype u := rfl

theorem setCtype_self (c : Context) : c.setCtype c.ctype = c := rfl

theorem setCtype_ctype (c : Context) (t : ConnectionType) :
    (c.setCtype t).ctype = t := rfl

theorem setCtype_dateVal (c : Context) (t : ConnectionType) :
    (c.setCtype t).dateVal = c.dateVal := rfl

/-- The drain loop characterized: under valid `Connection` values (or
force-close, which skips them), it appends exactly the rendered header
lines, ors the framing/date flags with the presence of the corresponding
names, applies the connection scan, and succeeds. -/
theorem processHeaders_eq (hs : List (HeaderName × List Nat)) :
    ∀ (ctx : Context) (sl sd : Bool) (buf : List Nat),
    (∀ h ∈ hs, h.1 = HeaderName.connection → ctx.isForceClose = false → toStrOk h.2 = true) →
    processHeaders ctx sl sd buf hs =
      ⟨buf ++ renderHeaders ctx.isForceClose hs,
       sl || hs.any isFramingName,
       sd || hs.any isDateName,
       ctx.setCtype (scanAll ctx.isForceClose ctx.ctype hs),
       Option.none⟩ := by
  induction hs with
  | nil =>
    intro ctx sl sd buf _
    simp [processHeaders, renderHeaders, scanAll, setCtype_self]
  | cons h rest ih =>
    intro ctx sl sd buf hok
    obtain ⟨n, v⟩ := h
    have hokrest : ∀ h ∈ rest, h.1 = HeaderName.connection →
        ctx.isForceClose = false → toStrOk h.2 = true := by
      intro h hm
      exact hok h (List.mem_cons_of_mem _ hm)
    cases n with
    | contentLength =>
      rw [processHeaders, ih ctx true sd _ hokrest]
      simp [renderHeaders, scanAll, isFramingName, isDateName, Bool.or_assoc]
    | transferEncoding =>
      rw [processHeaders, ih ctx true sd _ hokrest]
      simp [renderHeaders, scanAll, isFramingName, isDateName, Bool.or_assoc]
    | date =>
      rw [processHeaders, ih ctx sl true _ hokrest]
      simp [renderHeaders, scanAll, isFramingName, isDateName, Bool.or_assoc]
    | other bs =>
      rw [processHeaders, ih ctx sl sd _ hokrest]
      simp [renderHeaders, scanAll, isFramingName, isDateName, Bool.or_assoc]
    | connection =>
      rw [processHeaders]
      by_cases hfc : ctx.isForceClose
      · rw [if_pos hfc, ih ctx sl sd buf hokrest]
        simp [renderHeaders, scanAll, isFramingName, isDateName, hfc]
      · have hv : toStrOk v = true := by
          have := hok (HeaderName.connection, v) (List.mem_cons_self _ _) rfl
          simp [Bool.not_eq_true] at hfc
          exact this hfc
        rw [if_neg hfc, if_pos hv]
        set ctx2 := ctx.setCtype (scanConnectionValue ctx.ctype v) with hctx2
        have hfc2 : ctx2.isForceClose = ctx.isForceClose := rfl
        have hokrest2 : ∀ h ∈ rest, h.1 = HeaderName.connection →
            ctx2.isForceClose = false → toStrOk h.2 = true := by
          intro h hm he hf
          exact hokrest h hm he (hfc2 ▸ hf)
        rw [ih ctx2 sl sd _ hokrest2]
        simp only [Bool.not_eq_true] at hfc
        simp [renderHeaders, scanAll, isFramingName, isDateName, hfc, hfc2, hctx2,
          setCtype_setCtype, setCtype_ctype]

/-- The drain loop can only fail with `Parse::HeaderValue`, never with
`Parse::StatusCode`. -/
theorem processHeaders_err (hs : List (HeaderName × List Nat)) :
    ∀ (ctx : Context) (sl sd : Bool) (buf : List Nat),
    (processHeaders ctx sl sd buf hs).err = Option.none ∨
      (processHeaders ctx sl sd buf hs).err = some Parse.headerValue := by
  induction hs with
  | nil => intro ctx sl sd buf; left; rfl
  | cons h rest ih =>
    intro ctx sl sd buf
    obtain ⟨n, v⟩ := h
    cases n with
    | contentLength => rw [processHeaders]; exact ih ..
    | transferEncoding => rw [processHeaders]; exact ih ..
    | date => rw [processHeaders]; exact ih ..
    | other bs => rw [processHeaders]; exact ih ..
    | connection =>
      rw [processHeaders]
      by_cases hfc : ctx.isForceClose
      · rw [if_pos hfc]; exact ih ..
      · rw [if_neg hfc]
        by_cases hv : toStrOk v
        · rw [if_pos hv]; exact ih ..
        · rw [if_neg hv]; right; rfl

/-- `encode_head` on the success path, fully characterized: status line,
verbatim header lines (Connection dropped under force-close), the
synthesized `connection: close`, the framing line from the size hint unless
skipped, and the date segment or lone blank line; the context's connection
type is updated by the Connection scan. -/
theorem encodeHead_ok (ctx : Context) (parts : Parts) (size : ResponseBodySize)
    (buf : List Nat)
    (hst : parts.status = 101 ∨ isInformational parts.status = false)
    (hv : ∀ h ∈ parts.headers, h.1 = HeaderName.connection →
      ctx.isForceClose = false → toStrOk h.2 = true) :
    encodeHead ctx parts size buf =
      ⟨buf ++ encodeVersionStatusReason parts.version parts.status
           ++ renderHeaders ctx.isForceClose parts.headers
           ++ closeSeg ctx.isForceClose
           ++ (if initialSkipLen ctx parts.status || parts.headers.any isFramingName then []
               else framingSeg size)
           ++ (if parts.headers.any isDateName then crlf else dateSeg ctx),
       ctx.setCtype (scanAll ctx.isForceClose ctx.ctype parts.headers),
       Option.none⟩ := by
  have hrest : ∀ sl0 : Bool, sl0 = initialSkipLen ctx parts.status →
      encodeHeadRest ctx parts size buf sl0 =
      ⟨buf ++ encodeVersionStatusReason parts.version parts.status
           ++ renderHeaders ctx.isForceClose parts.headers
           ++ closeSeg ctx.isForceClose
           ++ (if initialSkipLen ctx parts.status || parts.headers.any isFramingName then []
               else framingSeg size)
           ++ (if parts.headers.any isDateName then crlf else dateSeg ctx),
       ctx.setCtype (scanAll ctx.isForceClose ctx.ctype parts.headers),
       Option.none⟩ := by
    intro sl0 hsl0
    rw [encodeHeadRest]
    rw [processHeaders_eq parts.headers ctx sl0 false _ hv]
    simp only [hsl0, Bool.false_or]
    by_cases hfc : ctx.isForceClose <;>
      by_cases hdt : parts.headers.any isDateName <;>
        by_cases hln : initialSkipLen ctx parts.status || parts.headers.any isFramingName <;>
          simp [hfc, hdt, hln, closeSeg, dateSeg, setCtype_isForceClose, setCtype_dateVal,
            List.append_assoc]
  rw [encodeHead, encodeHeadInner]
  by_cases h101 : parts.status = 101
  · rw [if_pos h101]
    exact hrest false (by rw [initialSkipLen, if_pos h101])
  · rw [if_neg h101]
    by_cases hconn : ctx.isConnectMethod && isSuccess parts.status
    · rw [if_pos hconn]
      exact hrest true (by rw [initialSkipLen, if_neg h101]; exact hconn.symm)
    · rw [if_neg hconn]
      have hinf : isInformational parts.status = false := by
        rcases hst with h | h
        · exact absurd h h101
        · exact h
      rw [hinf]
      simp only [Bool.false_eq_true, if_false]
      refine hrest false ?_
      rw [initialSkipLen, if_neg h101]
      simp only [Bool.not_eq_true] at hconn
      exact hconn.symm

theorem connUpdate_eq_matchToken (c : ConnectionType) (t : List Nat) :
    connUpdate c t = (matchToken t).getD c := by
  unfold connUpdate matchToken
  split_ifs <;> rfl

theorem getLast?_cons_getD {α : Type} : ∀ (l : List α) (d c : α),
    ((d :: l).getLast?).getD c = (l.getLast?).getD d := by
  intro l
  induction l with
  | nil => intro d c; rfl
  | cons e es ih =>
    intro d c
    rw [List.getLast?_cons_cons, ih e c, ih e d]

theorem foldl_connUpdate (toks : List (List Nat)) :
    ∀ c : ConnectionType,
      toks.foldl connUpdate c = ((toks.filterMap matchToken).getLast?).getD c := by
  induction toks with
  | nil => intro c; rfl
  | cons t ts ih =>
    intro c
    rw [List.foldl_cons, ih (connUpdate c t), connUpdate_eq_matchToken,
      List.filterMap_cons]
    cases h : matchToken t with
    | none => simp
    | some d => simp [getLast?_cons_getD]

theorem scanConnectionValue_eq_foldl (c : ConnectionType) (v : List Nat) :
    scanConnectionValue c v = ((splitOn 44 v).map trimBytes).foldl connUpdate c := by
  rw [scanConnectionValue, List.foldl_map]

/-- The non-force-close connection scan over the whole header collection is
a left fold of token updates over all trimmed `Connection` tokens. -/
theorem scanAll_eq_foldl (hs : List (HeaderName × List Nat)) :
    ∀ c : ConnectionType, scanAll false c hs = (connTokens hs).foldl connUpdate c := by
  induction hs with
  | nil => intro c; rfl
  | cons h rest ih =>
    intro c
    rw [scanAll, connTokens, List.foldl_append]
    by_cases hc : h.1 = HeaderName.connection
    · rw [if_pos hc, if_pos ⟨rfl, hc⟩, ih, scanConnectionValue_eq_foldl]
    · rw [if_neg hc,
        if_neg (show ¬(false = false ∧ h.1 = HeaderName.connection) by simp [hc]),
        List.foldl_nil, ih]

/-- "Last matching token wins": the scanned connection type is the mapping
of the last token that matches, or the initial value when none matches. -/
theorem scanAll_lastMatch (hs : List (HeaderName × List Nat)) (c : ConnectionType) :
    scanAll false c hs = (((connTokens hs).filterMap matchToken).getLast?).getD c := by
  rw [scanAll_eq_foldl, foldl_connUpdate]

/-- One `encode` call on a `Length` encoder: it appends exactly the first
`min(remaining, chunk.len())` bytes of the chunk, decrements `remaining` by
that amount, and reports eof iff the new remainder is zero. -/
theorem encode_length (n : Nat) (c : List Nat) :
    TransferEncoding.encode (TransferEncoding.length n) c =
      ⟨TransferEncoding.length (n - min n c.length), c.take (min n c.length),
        n - min n c.length == 0⟩ := by
  rcases Nat.eq_zero_or_pos n with hn | hn
  · subst hn
    rw [TransferEncoding.encode]
    show (if 0 > 0 then _ else _) = _
    rw [if_neg (by omega)]
    simp [TransferEncoding.length]
  · rcases eq_or_ne c [] with hc | hc
    · subst hc
      rw [TransferEncoding.encode]
      show (if n > 0 then _ else _) = _
      rw [if_pos hn, if_pos (show List.isEmpty [] = true from rfl)]
      have h1 : min n (List.length ([] : List Nat)) = 0 := by simp
      rw [h1]
      have h2 : (n - 0 == 0) = false := by
        simp only [Nat.sub_zero, beq_eq_false_iff_ne, ne_eq]
        omega
      rw [h2]
      simp [TransferEncoding.length]
    · rw [TransferEncoding.encode]
      show (if n > 0 then _ else _) = _
      rw [if_pos hn, if_neg (by simp [List.isEmpty_iff, hc])]
      rfl

/-- Running any chunk sequence through a `Length(n)` encoder leaves a
`Length` encoder whose remainder is `n` minus the bytes written, and never
writes more than `n` bytes. -/
theorem runEncodes_length_spec (chunks : List (List Nat)) : ∀ n : Nat,
    (runEncodes (TransferEncoding.length n) chunks).1 =
      TransferEncoding.length (n - (runEncodes (TransferEncoding.length n) chunks).2.length) ∧
    (runEncodes (TransferEncoding.length n) chunks).2.length ≤ n := by
  induction chunks with
  | nil => intro n; constructor <;> simp [runEncodes]
  | cons c cs ih =>
    intro n
    rw [runEncodes]
    simp only [encode_length]
    obtain ⟨ih1, ih2⟩ := ih (n - min n c.length)
    have hk : min n c.length ≤ c.length := Nat.min_le_right ..
    have hkn : min n c.length ≤ n := Nat.min_le_left ..
    have hlen : (c.take (min n c.length)).length = min n c.length := by
      rw [List.length_take]
      omega
    constructor
    · rw [ih1, List.length_append, hlen]
      congr 1
      omega
    · rw [List.length_append, hlen]
      omega

theorem hexDigitVal_hexDigitByte (m : Nat) (h : m < 16) :
    hexDigitVal (hexDigitByte m) = m := by
  unfold hexDigitByte hexDigitVal
  split_ifs <;> omega

theorem isHex_hexDigitByte (m : Nat) (h : m < 16) :
    isHexDigitByte (hexDigitByte m) = true := by
  unfold hexDigitByte isHexDigitByte
  split_ifs with h1 <;>
    simp only [Bool.or_eq_true, Bool.and_eq_true, decide_eq_true_eq] <;> omega

theorem hexUpperFueled_congr : ∀ (f1 f2 n : Nat), n < f1 → n < f2 →
    hexUpperFueled f1 n = hexUpperFueled f2 n := by
  intro f1
  induction f1 with
  | zero => intro f2 n h1 _; omega
  | succ f ih =>
    intro f2 n h1 h2
    cases f2 with
    | zero => omega
    | succ g =>
      rw [hexUpperFueled, hexUpperFueled]
      by_cases hn : n < 16
      · rw [if_pos hn, if_pos hn]
      · rw [if_neg hn, if_neg hn]
        have hd : n / 16 < n := Nat.div_lt_self (by omega) (by omega)
        rw [ih g (n / 16) (by omega) (by omega)]

/-- The defining recursion of `{:X}` hex formatting, fuel eliminated. -/
theorem hexUpper_eq (n : Nat) :
    hexUpper n = if n < 16 then [hexDigitByte n]
      else hexUpper (n / 16) ++ [hexDigitByte (n % 16)] := by
  rw [hexUpper, hexUpperFueled]
  by_cases hn : n < 16
  · rw [if_pos hn, if_pos hn]
  · rw [if_neg hn, if_neg hn, hexUpper]
    have hd : n / 16 < n := Nat.div_lt_self (by omega) (by omega)
    rw [hexUpperFueled_congr n (n / 16 + 1) (n / 16) (by omega) (by omega)]

theorem hexUpper_ne_nil (n : Nat) : hexUpper n ≠ [] := by
  rw [hexUpper_eq]
  by_cases hn : n < 16
  · rw [if_pos hn]; simp
  · rw [if_neg hn]; simp

theorem hexUpper_all_hex (n : Nat) : ∀ b ∈ hexUpper n, isHexDigitByte b = true := by
  induction n using Nat.strong_induction_on with
  | _ n ih =>
    rw [hexUpper_eq]
    by_cases hn : n < 16
    · rw [if_pos hn]
      intro b hb
      rw [List.mem_singleton] at hb
      subst hb
      exact isHex_hexDigitByte n hn
    · rw [if_neg hn]
      intro b hb
      rcases List.mem_append.mp hb with h | h
      · exact ih (n / 16) (Nat.div_lt_self (by omega) (by omega)) b h
      · rw [List.mem_singleton] at h
        subst h
        exact isHex_hexDigitByte _ (by omega)

theorem hexVal_append_singleton (ds : List Nat) (d : Nat) :
    hexVal (ds ++ [d]) = hexVal ds * 16 + hexDigitVal d := by
  rw [hexVal, List.foldl_append]
  rfl

/-- Hex formatting and hex reading are inverse: the decoder recovers the
exact chunk length the encoder printed. -/
theorem hexVal_hexUpper (n : Nat) : hexVal (hexUpper n) = n := by
  induction n using Nat.strong_induction_on with
  | _ n ih =>
    rw [hexUpper_eq]
    by_cases hn : n < 16
    · rw [if_pos hn]
      show 0 * 16 + hexDigitVal (hexDigitByte n) = n
      rw [hexDigitVal_hexDigitByte n hn]
      omega
    · rw [if_neg hn, hexVal_append_singleton,
        ih (n / 16) (Nat.div_lt_self (by omega) (by omega)),
        hexDigitVal_hexDigitByte (n % 16) (by omega)]
      omega

theorem crlf_eq : crlf = [13, 10] := rfl

theorem takeWhile_dropWhile_hex (l : List Nat) (rest : List Nat)
    (h : ∀ b ∈ l, isHexDigitByte b = true) :
    (l ++ 13 :: rest).takeWhile isHexDigitByte = l ∧
    (l ++ 13 :: rest).dropWhile isHexDigitByte = 13 :: rest := by
  induction l with
  | nil =>
    constructor
    · rw [List.nil_append, List.takeWhile_cons]
      simp [isHexDigitByte]
    · rw [List.nil_append, List.dropWhile_cons]
      simp [isHexDigitByte]
  | cons a as ih =>
    have ha : isHexDigitByte a = true := h a (List.mem_cons_self ..)
    obtain ⟨ih1, ih2⟩ := ih fun b hb => h b (List.mem_cons_of_mem _ hb)
    constructor
    · rw [List.cons_append, List.takeWhile_cons, ha]
      simp [ih1]
    · rw [List.cons_append, List.dropWhile_cons, ha]
      simp [ih2]

/-- The decoder consumes exactly one encoded chunk and prepends its payload
to whatever the remaining input decodes to. -/
theorem chunkedDecode_step (c rest : List Nat) (fuel : Nat) (hc : c ≠ []) :
    chunkedDecode (fuel + 1) (encChunk c ++ rest) =
      (chunkedDecode fuel rest).map (fun t => c ++ t) := by
  have hassoc : encChunk c ++ rest =
      hexUpper c.length ++ (13 :: (10 :: (c ++ 13 :: 10 :: rest))) := by
    rw [encChunk, crlf_eq]
    simp [List.append_assoc]
  obtain ⟨ht, hd⟩ :=
    takeWhile_dropWhile_hex (hexUpper c.length) (10 :: (c ++ 13 :: 10 :: rest))
      (hexUpper_all_hex c.length)
  have hlen0 : c.length ≠ 0 := by
    intro h0
    exact hc (List.length_eq_zero.mp h0)
  rw [chunkedDecode, hassoc]
  simp only [ht, hd]
  rw [if_neg (hexUpper_ne_nil c.length)]
  simp only [hexVal_hexUpper]
  rw [if_neg hlen0]
  have hdrop : (c ++ 13 :: 10 :: rest).drop c.length = 13 :: 10 :: rest :=
    List.drop_left c _
  have htake : (c ++ 13 :: 10 :: rest).take c.length = c :=
    List.take_left c _
  simp only [hdrop, htake]
  simp

theorem chunkedDecode_term : chunkedDecode 1 (strBytes "0\r\n\r\n") = some [] := by decide

/-- Running non-empty chunks through a fresh `Chunked` encoder emits exactly
the concatenated chunk framing and leaves the encoder unfinished. -/
theorem runEncodes_chunked (chunks : List (List Nat)) (h : ∀ c ∈ chunks, c ≠ []) :
    runEncodes TransferEncoding.chunked chunks =
      (TransferEncoding.chunked, (chunks.map encChunk).flatten) := by
  induction chunks with
  | nil => simp [runEncodes]
  | cons c cs ih =>
    have hc : c ≠ [] := h c (List.mem_cons_self ..)
    have hst : TransferEncoding.chunked.encode c =
        ⟨TransferEncoding.chunked, encChunk c, false⟩ := by
      rw [TransferEncoding.encode]
      show (if false = true then _ else _) = _
      rw [if_neg (by simp), if_neg (by simp [List.isEmpty_iff, hc])]
      rfl
    rw [runEncodes]
    simp only [hst, ih fun c hcm => h c (List.mem_cons_of_mem _ hcm)]
    simp

/-- Decoding the emitted framing plus terminator recovers the chunk
concatenation. -/
theorem chunkedDecode_roundtrip (chunks : List (List Nat))
    (h : ∀ c ∈ chunks, c ≠ []) :
    chunkedDecode (chunks.length + 1) ((chunks.map encChunk).flatten ++ strBytes "0\r\n\r\n") =
      some chunks.flatten := by
  induction chunks with
  | nil => simpa using chunkedDecode_term
  | cons c cs ih =>
    rw [List.map_cons, List.flatten_cons, List.append_assoc, List.length_cons,
      chunkedDecode_step c _ (cs.length + 1) (h c (List.mem_cons_self ..)),
      ih fun c hcm => h c (List.mem_cons_of_mem _ hcm)]
    simp

/-- Under force-close the scan leaves the connection type untouched. -/
theorem scanAll_force (hs : List (HeaderName × List Nat)) :
    ∀ c : ConnectionType, scanAll true c hs = c := by
  induction hs with
  | nil => intro c; rfl
  | cons h rest ih =>
    intro c
    rw [scanAll, if_neg (by simp), ih]

/-- `encode_head` never reports `Parse::StatusCode` from its serialization
tail. -/
theorem encodeHeadRest_err (ctx : Context) (parts : Parts) (size : ResponseBodySize)
    (buf : List Nat) (sl : Bool) :
    (encodeHeadRest ctx parts size buf sl).err = Option.none ∨
    (encodeHeadRest ctx parts size buf sl).err = some Parse.headerValue := by
  rcases processHeaders_err parts.headers ctx sl false
      (buf ++ encodeVersionStatusReason parts.version parts.status) with h | h
  · left
    rw [encodeHeadRest]
    simp only [h]
  · right
    rw [encodeHeadRest]
    simp only [h]

/-- A rendered framing header line is an infix of the rendered header
block. -/
theorem renderHeader_infix (force : Bool) (hs : List (HeaderName × List Nat)) :
    ∀ h ∈ hs, isFramingName h = true →
      List.IsInfix (renderHeader h) (renderHeaders force hs) := by
  induction hs with
  | nil => intro h hm; simp at hm
  | cons a rest ih =>
    intro h hm hfr
    rcases List.mem_cons.mp hm with he | hm'
    · subst he
      have hnc : ¬(force = true ∧ h.1 = HeaderName.connection) := by
        rintro ⟨-, hc⟩
        rw [isFramingName, hc] at hfr
        simp at hfr
      rw [renderHeaders, if_neg hnc]
      exact ⟨[], renderHeaders force rest, by simp⟩
    · obtain ⟨s, t, hseq⟩ := ih h hm' hfr
      rw [renderHeaders]
      refine ⟨(if force = true ∧ a.1 = HeaderName.connection then [] else renderHeader a) ++ s,
        t, ?_⟩
      rw [← hseq]
      simp [List.append_assoc]

/-! ### The claims -/

/-- C1 (claim refuted by the code, recorded as a code bug): for a
`101 Switching Protocols` response the `skip_len` match arm (encode.rs line
62) yields `false`, so with a `Stream` body-size hint `encode_head` *does*
synthesize a `transfer-encoding: chunked` line, and with `Sized(5)` it
synthesizes a `content-length: 5` line, contradicting the suppression the
specification states. -/
theorem c1_switching_protocols_framing_emitted :
    (encodeHead ⟨0, ConnectionType.init, strBytes "Thu, 01 Jan 1970 00:00:00 GMT"⟩
        ⟨Version.http11, 101, []⟩ ResponseBodySize.stream []).buf =
      strBytes
        "HTTP/1.1 101 Switching Protocols\r\ntransfer-encoding: chunked\r\ndate: Thu, 01 Jan 1970 00:00:00 GMT\r\n\r\n" ∧
    (encodeHead ⟨0, ConnectionType.init, strBytes "Thu, 01 Jan 1970 00:00:00 GMT"⟩
        ⟨Version.http11, 101, []⟩ ResponseBodySize.stream []).err = Option.none ∧
    (encodeHead ⟨0, ConnectionType.init, strBytes "Thu, 01 Jan 1970 00:00:00 GMT"⟩
        ⟨Version.http11, 101, []⟩ (ResponseBodySize.sized 5) []).buf =
      strBytes
        "HTTP/1.1 101 Switching Protocols\r\ncontent-length: 5\r\ndate: Thu, 01 Jan 1970 00:00:00 GMT\r\n\r\n" := by
  refine ⟨by decide, by decide, by decide⟩

/-- C2: a `Length(n)` encoder clamps every chunk to the remaining budget
(each `encode` appends exactly the first `min(remaining, chunk.len())` bytes
and decrements `remaining` by that amount), so the total bytes written never
exceed `n`; `encode_eof` succeeds exactly when the written total equals `n`
(remaining hit zero) and appends nothing either way. -/
theorem c2_length_clamp_and_eof (n : Nat) (chunks : List (List Nat)) :
    (runEncodes (TransferEncoding.length n) chunks).2.length ≤ n ∧
    ((TransferEncoding.encodeEof (runEncodes (TransferEncoding.length n) chunks).1).ok = true ↔
      (runEncodes (TransferEncoding.length n) chunks).2.length = n) ∧
    (TransferEncoding.encodeEof (runEncodes (TransferEncoding.length n) chunks).1).out = [] ∧
    ∀ (rem : Nat) (c : List Nat),
      TransferEncoding.encode (TransferEncoding.length rem) c =
        ⟨TransferEncoding.length (rem - min rem c.length), c.take (min rem c.length),
          rem - min rem c.length == 0⟩ := by
  obtain ⟨h1, h2⟩ := runEncodes_length_spec chunks n
  refine ⟨h2, ?_, ?_, fun rem c => encode_length rem c⟩
  · rw [h1]
    show ((n - (runEncodes (TransferEncoding.length n) chunks).2.length == 0) = true ↔ _)
    rw [beq_iff_eq]
    omega
  · rw [h1]
    rfl

/-- C3: feeding non-empty chunks through a fresh `Chunked` encoder followed
by `encode_eof` emits, per chunk, the uppercase-hex length line, the chunk
bytes and a CRLF, then the `0\r\n\r\n` terminator, and a standard
chunked-transfer decoder applied to those bytes recovers the chunk
concatenation. -/
theorem c3_chunked_roundtrip (chunks : List (List Nat)) (hne : ∀ c ∈ chunks, c ≠ []) :
    (runEncodes TransferEncoding.chunked chunks).2 = (chunks.map encChunk).flatten ∧
    (TransferEncoding.encodeEof (runEncodes TransferEncoding.chunked chunks).1).out =
      strBytes "0\r\n\r\n" ∧
    (TransferEncoding.encodeEof (runEncodes TransferEncoding.chunked chunks).1).ok = true ∧
    chunkedDecode (chunks.length + 1)
      ((runEncodes TransferEncoding.chunked chunks).2 ++
        (TransferEncoding.encodeEof (runEncodes TransferEncoding.chunked chunks).1).out) =
      some chunks.flatten := by
  rw [runEncodes_chunked chunks hne]
  exact ⟨rfl, rfl, rfl, chunkedDecode_roundtrip chunks hne⟩

theorem c3_chunked_roundtrip_witness :
    (∀ c ∈ [[104, 105], [33]], c ≠ ([] : List Nat)) ∧
    ((runEncodes TransferEncoding.chunked [[104, 105], [33]]).2 =
        ([[104, 105], [33]].map encChunk).flatten ∧
      (TransferEncoding.encodeEof (runEncodes TransferEncoding.chunked [[104, 105], [33]]).1).out =
        strBytes "0\r\n\r\n" ∧
      (TransferEncoding.encodeEof (runEncodes TransferEncoding.chunked [[104, 105], [33]]).1).ok =
        true ∧
      chunkedDecode ([[104, 105], [33]].length + 1)
        ((runEncodes TransferEncoding.chunked [[104, 105], [33]]).2 ++
          (TransferEncoding.encodeEof
            (runEncodes TransferEncoding.chunked [[104, 105], [33]]).1).out) =
        some [[104, 105], [33]].flatten) :=
  ⟨by decide, c3_chunked_roundtrip [[104, 105], [33]] (by decide)⟩

/-- C8 counterexample: `reset` does not preserve the connection
disposition — on a context whose disposition is `Close` it yields
`KeepAlive`. -/
theorem c8_reset_counterexample :
    (Context.reset ⟨7, ConnectionType.close, []⟩).ctype = ConnectionType.keepAlive ∧
    (Context.reset ⟨7, ConnectionType.close, []⟩).ctype ≠
      (⟨7, ConnectionType.close, []⟩ : Context).ctype := by
  refine ⟨rfl, by decide⟩

/-- C8 (amended): `reset` clears all per-request transient flags
(expects-continue, is-connect, force-close become false) and sets the
connection disposition to `KeepAlive` (so it is preserved only when it
already was `KeepAlive`). -/
theorem c8_reset_clears_flags (c : Context) :
    (c.reset).isExpectHeader = false ∧ (c.reset).isConnectMethod = false ∧
    (c.reset).isForceClose = false ∧ (c.reset).ctype = ConnectionType.keepAlive :=
  ⟨by simp [Context.reset, Context.isExpectHeader],
   by simp [Context.reset, Context.isConnectMethod],
   by simp [Context.reset, Context.isForceClose], rfl⟩

/-- C4: on a CONNECT-method context with a 2xx status, `encode_head`
synthesizes no framing line — its output does not depend on the body-size
hint at all and consists solely of status line, the caller's headers (which
by the `debug_assert` contract carry no `Content-Length` or
`Transfer-Encoding`), the optional `connection: close`, and the date
segment. -/
theorem c4_connect_success_no_framing (ctx : Context) (parts : Parts)
    (size : ResponseBodySize) (buf : List Nat)
    (hcm : ctx.isConnectMethod = true) (hsc : isSuccess parts.status = true)
    (_hnf : ∀ h ∈ parts.headers, isFramingName h = false)
    (hv : ∀ h ∈ parts.headers, h.1 = HeaderName.connection →
      ctx.isForceClose = false → toStrOk h.2 = true) :
    encodeHead ctx parts size buf = encodeHead ctx parts ResponseBodySize.none buf ∧
    (encodeHead ctx parts size buf).buf =
      buf ++ encodeVersionStatusReason parts.version parts.status
          ++ renderHeaders ctx.isForceClose parts.headers
          ++ closeSeg ctx.isForceClose
          ++ (if parts.headers.any isDateName then crlf else dateSeg ctx) := by
  have h101 : parts.status ≠ 101 := by
    rw [isSuccess, decide_eq_true_eq] at hsc
    omega
  have hst : parts.status = 101 ∨ isInformational parts.status = false := by
    right
    rw [isSuccess, decide_eq_true_eq] at hsc
    rw [isInformational, decide_eq_false_iff_not]
    omega
  have hskip : initialSkipLen ctx parts.status = true := by
    rw [initialSkipLen, if_neg h101, hcm, hsc, Bool.and_self]
  constructor
  · rw [encodeHead_ok ctx parts size buf hst hv,
      encodeHead_ok ctx parts ResponseBodySize.none buf hst hv, hskip]
    simp
  · rw [encodeHead_ok ctx parts size buf hst hv, hskip]
    simp

theorem c4_connect_success_no_framing_witness :
    (⟨2, ConnectionType.init, [68]⟩ : Context).isConnectMethod = true ∧
    isSuccess 204 = true ∧
    (∀ h ∈ [(HeaderName.other [120], [121])], isFramingName h = false) ∧
    (∀ h ∈ [(HeaderName.other [120], [121])], h.1 = HeaderName.connection →
      (⟨2, ConnectionType.init, [68]⟩ : Context).isForceClose = false → toStrOk h.2 = true) ∧
    (encodeHead ⟨2, ConnectionType.init, [68]⟩
        ⟨Version.http11, 204, [(HeaderName.other [120], [121])]⟩ (ResponseBodySize.sized 5) [] =
      encodeHead ⟨2, ConnectionType.init, [68]⟩
        ⟨Version.http11, 204, [(HeaderName.other [120], [121])]⟩ ResponseBodySize.none [] ∧
    (encodeHead ⟨2, ConnectionType.init, [68]⟩
        ⟨Version.http11, 204, [(HeaderName.other [120], [121])]⟩ (ResponseBodySize.sized 5) []).buf =
      [] ++ encodeVersionStatusReason Version.http11 204
          ++ renderHeaders (⟨2, ConnectionType.init, [68]⟩ : Context).isForceClose
              [(HeaderName.other [120], [121])]
          ++ closeSeg (⟨2, ConnectionType.init, [68]⟩ : Context).isForceClose
          ++ (if ([(HeaderName.other [120], [121])]).any isDateName then crlf
              else dateSeg ⟨2, ConnectionType.init, [68]⟩)) :=
  ⟨by decide, by decide, by decide, by decide,
    c4_connect_success_no_framing ⟨2, ConnectionType.init, [68]⟩
      ⟨Version.http11, 204, [(HeaderName.other [120], [121])]⟩ (ResponseBodySize.sized 5) []
      (by decide) (by decide) (by decide) (by decide)⟩

/-- C5: `encode_head` returns the `Parse::StatusCode` error exactly when the
status is informational (1xx) and not 101, and on that path it returns
before appending anything: the buffer and the context are unchanged. -/
theorem c5_informational_status_error (ctx : Context) (parts : Parts)
    (size : ResponseBodySize) (buf : List Nat) :
    ((encodeHead ctx parts size buf).err = some Parse.statusCode ↔
      isInformational parts.status = true ∧ parts.status ≠ 101) ∧
    (isInformational parts.status = true → parts.status ≠ 101 →
      encodeHead ctx parts size buf = ⟨buf, ctx, some Parse.statusCode⟩) := by
  have herr : isInformational parts.status = true → parts.status ≠ 101 →
      encodeHead ctx parts size buf = ⟨buf, ctx, some Parse.statusCode⟩ := by
    intro hinf h101
    have hsc : isSuccess parts.status = false := by
      rw [isInformational, decide_eq_true_eq] at hinf
      rw [isSuccess, decide_eq_false_iff_not]
      omega
    rw [encodeHead, encodeHeadInner, if_neg h101, hsc, Bool.and_false]
    simp only [Bool.false_eq_true, if_false]
    rw [if_pos hinf]
  have hnostatus : ∀ sl, (encodeHeadRest ctx parts size buf sl).err ≠ some Parse.statusCode := by
    intro sl hcon
    rcases encodeHeadRest_err ctx parts size buf sl with h | h <;> rw [hcon] at h <;> simp at h
  refine ⟨⟨?_, ?_⟩, herr⟩
  · intro he
    by_cases h101 : parts.status = 101
    · rw [encodeHead, encodeHeadInner, if_pos h101] at he
      exact absurd he (hnostatus false)
    · by_cases hcm : ctx.isConnectMethod && isSuccess parts.status
      · rw [encodeHead, encodeHeadInner, if_neg h101, if_pos hcm] at he
        exact absurd he (hnostatus true)
      · by_cases hinf : isInformational parts.status
        · exact ⟨hinf, h101⟩
        · rw [encodeHead, encodeHeadInner, if_neg h101] at he
          rw [Bool.not_eq_true] at hcm hinf
          rw [hcm] at he
          simp only [Bool.false_eq_true, if_false] at he
          rw [hinf] at he
          simp only [Bool.false_eq_true, if_false] at he
          exact absurd he (hnostatus false)
  · rintro ⟨hinf, h101⟩
    rw [herr hinf h101]

theorem c5_informational_status_error_witness :
    isInformational 103 = true ∧ (103 : Nat) ≠ 101 ∧
    encodeHead ⟨0, ConnectionType.init, []⟩ ⟨Version.http11, 103, []⟩
        ResponseBodySize.none [65] =
      ⟨[65], ⟨0, ConnectionType.init, []⟩, some Parse.statusCode⟩ :=
  ⟨by decide, by decide,
    (c5_informational_status_error ⟨0, ConnectionType.init, []⟩ ⟨Version.http11, 103, []⟩
        ResponseBodySize.none [65]).2 (by decide) (by decide)⟩

/-- C6: without force-close, every comma-separated token of each
`Connection` header value is trimmed and matched case-insensitively against
`close` / `keep-alive` / `upgrade`; after a successful `encode_head` the
context's connection type is the mapping of the last matching token, and it
is unchanged when no token matches. -/
theorem c6_connection_last_match_wins (ctx : Context) (parts : Parts)
    (size : ResponseBodySize) (buf : List Nat)
    (hf : ctx.isForceClose = false)
    (hst : parts.status = 101 ∨ isInformational parts.status = false)
    (hv : ∀ h ∈ parts.headers, h.1 = HeaderName.connection → toStrOk h.2 = true) :
    (encodeHead ctx parts size buf).err = Option.none ∧
    (encodeHead ctx parts size buf).ctx.ctype =
      (((connTokens parts.headers).filterMap matchToken).getLast?).getD ctx.ctype := by
  have hv' : ∀ h ∈ parts.headers, h.1 = HeaderName.connection →
      ctx.isForceClose = false → toStrOk h.2 = true := fun h hm he _ => hv h hm he
  rw [encodeHead_ok ctx parts size buf hst hv']
  refine ⟨rfl, ?_⟩
  show (ctx.setCtype (scanAll ctx.isForceClose ctx.ctype parts.headers)).ctype = _
  rw [setCtype_ctype, hf, scanAll_lastMatch]

theorem c6_connection_last_match_wins_witness :
    (⟨0, ConnectionType.init, []⟩ : Context).isForceClose = false ∧
    ((200 : Nat) = 101 ∨ isInformational 200 = false) ∧
    (∀ h ∈ [(HeaderName.connection, strBytes "keep-alive, upgrade")],
      h.1 = HeaderName.connection → toStrOk h.2 = true) ∧
    ((encodeHead ⟨0, ConnectionType.init, []⟩
        ⟨Version.http11, 200, [(HeaderName.connection, strBytes "keep-alive, upgrade")]⟩
        ResponseBodySize.none []).err = Option.none ∧
    (encodeHead ⟨0, ConnectionType.init, []⟩
        ⟨Version.http11, 200, [(HeaderName.connection, strBytes "keep-alive, upgrade")]⟩
        ResponseBodySize.none []).ctx.ctype =
      (((connTokens [(HeaderName.connection, strBytes "keep-alive, upgrade")]).filterMap
          matchToken).getLast?).getD (⟨0, ConnectionType.init, []⟩ : Context).ctype) :=
  ⟨by decide, by decide, by decide,
    c6_connection_last_match_wins ⟨0, ConnectionType.init, []⟩
      ⟨Version.http11, 200, [(HeaderName.connection, strBytes "keep-alive, upgrade")]⟩
      ResponseBodySize.none [] (by decide) (by decide) (by decide)⟩

/-- C7: with the force-close flag set, every caller-supplied `Connection`
header is dropped (not serialized — `renderHeaders true` omits them — and
not scanned: the context comes back unchanged), and exactly one synthesized
`connection: close\r\n` line follows the drained headers. -/
theorem c7_force_close_overrides_connection (ctx : Context) (parts : Parts)
    (size : ResponseBodySize) (buf : List Nat)
    (hf : ctx.isForceClose = true)
    (hst : parts.status = 101 ∨ isInformational parts.status = false) :
    encodeHead ctx parts size buf =
      ⟨buf ++ encodeVersionStatusReason parts.version parts.status
           ++ renderHeaders true parts.headers
           ++ strBytes "connection: close\r\n"
           ++ (if initialSkipLen ctx parts.status || parts.headers.any isFramingName then []
               else framingSeg size)
           ++ (if parts.headers.any isDateName then crlf else dateSeg ctx),
       ctx, Option.none⟩ := by
  have hv : ∀ h ∈ parts.headers, h.1 = HeaderName.connection →
      ctx.isForceClose = false → toStrOk h.2 = true := by
    intro h hm he hfc
    rw [hf] at hfc
    exact absurd hfc (by simp)
  rw [encodeHead_ok ctx parts size buf hst hv, hf,
    scanAll_force parts.headers ctx.ctype, setCtype_self]
  rfl

theorem c7_force_close_overrides_connection_witness :
    (⟨4, ConnectionType.init, [68]⟩ : Context).isForceClose = true ∧
    ((200 : Nat) = 101 ∨ isInformational 200 = false) ∧
    encodeHead ⟨4, ConnectionType.init, [68]⟩
        ⟨Version.http11, 200, [(HeaderName.connection, strBytes "keep-alive")]⟩
        ResponseBodySize.none [] =
      ⟨[] ++ encodeVersionStatusReason Version.http11 200
           ++ renderHeaders true [(HeaderName.connection, strBytes "keep-alive")]
           ++ strBytes "connection: close\r\n"
           ++ (if initialSkipLen ⟨4, ConnectionType.init, [68]⟩ 200 ||
                ([(HeaderName.connection, strBytes "keep-alive")]).any isFramingName then []
               else framingSeg ResponseBodySize.none)
           ++ (if ([(HeaderName.connection, strBytes "keep-alive")]).any isDateName then crlf
               else dateSeg ⟨4, ConnectionType.init, [68]⟩),
       ⟨4, ConnectionType.init, [68]⟩, Option.none⟩ :=
  ⟨by decide, by decide,
    c7_force_close_overrides_connection ⟨4, ConnectionType.init, [68]⟩
      ⟨Version.http11, 200, [(HeaderName.connection, strBytes "keep-alive")]⟩
      ResponseBodySize.none [] (by decide) (by decide)⟩

/-- C9: on a successful `encode_head`, when the caller supplied no `Date`
header exactly the one generated `date: <cached-timestamp>\r\n` line closes
the output together with the blank line (the timestamp being the context's
clock-cache value at encode time); when a `Date` header was supplied it sits
verbatim among the rendered headers and only the blank line is appended. -/
theorem c9_date_generated_or_verbatim (ctx : Context) (parts : Parts)
    (size : ResponseBodySize) (buf : List Nat)
    (hst : parts.status = 101 ∨ isInformational parts.status = false)
    (hv : ∀ h ∈ parts.headers, h.1 = HeaderName.connection →
      ctx.isForceClose = false → toStrOk h.2 = true) :
    (encodeHead ctx parts size buf).err = Option.none ∧
    (encodeHead ctx parts size buf).buf =
      buf ++ encodeVersionStatusReason parts.version parts.status
          ++ renderHeaders ctx.isForceClose parts.headers
          ++ closeSeg ctx.isForceClose
          ++ (if initialSkipLen ctx parts.status || parts.headers.any isFramingName then []
              else framingSeg size)
          ++ (if parts.headers.any isDateName then crlf
              else strBytes "date: " ++ ctx.dateVal ++ strBytes "\r\n\r\n") := by
  rw [encodeHead_ok ctx parts size buf hst hv]
  refine ⟨rfl, ?_⟩
  rw [dateSeg]

theorem c9_date_generated_or_verbatim_witness :
    ((200 : Nat) = 101 ∨ isInformational 200 = false) ∧
    (∀ h ∈ ([] : List (HeaderName × List Nat)), h.1 = HeaderName.connection →
      (⟨0, ConnectionType.init, [68, 69]⟩ : Context).isForceClose = false →
        toStrOk h.2 = true) ∧
    ((encodeHead ⟨0, ConnectionType.init, [68, 69]⟩ ⟨Version.http11, 200, []⟩
        ResponseBodySize.none []).err = Option.none ∧
    (encodeHead ⟨0, ConnectionType.init, [68, 69]⟩ ⟨Version.http11, 200, []⟩
        ResponseBodySize.none []).buf =
      [] ++ encodeVersionStatusReason Version.http11 200
          ++ renderHeaders (⟨0, ConnectionType.init, [68, 69]⟩ : Context).isForceClose []
          ++ closeSeg (⟨0, ConnectionType.init, [68, 69]⟩ : Context).isForceClose
          ++ (if initialSkipLen ⟨0, ConnectionType.init, [68, 69]⟩ 200 ||
                ([] : List (HeaderName × List Nat)).any isFramingName then []
              else framingSeg ResponseBodySize.none)
          ++ (if ([] : List (HeaderName × List Nat)).any isDateName then crlf
              else strBytes "date: " ++
                (⟨0, ConnectionType.init, [68, 69]⟩ : Context).dateVal ++
                strBytes "\r\n\r\n")) :=
  ⟨by decide, by decide,
    c9_date_generated_or_verbatim ⟨0, ConnectionType.init, [68, 69]⟩
      ⟨Version.http11, 200, []⟩ ResponseBodySize.none [] (by decide) (by decide)⟩

/-- C10: when the caller supplied a `Content-Length` or `Transfer-Encoding`
header, that header line is serialized verbatim (it is an infix of the
output) and no framing line is synthesized from the body-size hint — the
output ends right after the headers with the date segment or blank line. -/
theorem c10_explicit_framing_precedence (ctx : Context) (parts : Parts)
    (size : ResponseBodySize) (buf : List Nat)
    (hst : parts.status = 101 ∨ isInformational parts.status = false)
    (hv : ∀ h ∈ parts.headers, h.1 = HeaderName.connection →
      ctx.isForceClose = false → toStrOk h.2 = true)
    (hcl : parts.headers.any isFramingName = true) :
    (encodeHead ctx parts size buf).err = Option.none ∧
    (encodeHead ctx parts size buf).buf =
      buf ++ encodeVersionStatusReason parts.version parts.status
          ++ renderHeaders ctx.isForceClose parts.headers
          ++ closeSeg ctx.isForceClose
          ++ (if parts.headers.any isDateName then crlf else dateSeg ctx) ∧
    ∀ h ∈ parts.headers, isFramingName h = true →
      List.IsInfix (renderHeader h) (encodeHead ctx parts size buf).buf := by
  rw [encodeHead_ok ctx parts size buf hst hv]
  refine ⟨rfl, ?_, ?_⟩
  · rw [hcl]
    simp
  · intro h hm hfr
    obtain ⟨s, t, hseq⟩ := renderHeader_infix ctx.isForceClose parts.headers h hm hfr
    refine ⟨buf ++ encodeVersionStatusReason parts.version parts.status ++ s,
      t ++ closeSeg ctx.isForceClose
        ++ (if initialSkipLen ctx parts.status || parts.headers.any isFramingName then []
            else framingSeg size)
        ++ (if parts.headers.any isDateName then crlf else dateSeg ctx), ?_⟩
    rw [← hseq]
    simp [List.append_assoc]

theorem c10_explicit_framing_precedence_witness :
    ((200 : Nat) = 101 ∨ isInformational 200 = false) ∧
    (∀ h ∈ [(HeaderName.contentLength, [53])], h.1 = HeaderName.connection →
      (⟨0, ConnectionType.init, [68]⟩ : Context).isForceClose = false → toStrOk h.2 = true) ∧
    ([(HeaderName.contentLength, [53])].any isFramingName = true) ∧
    ((encodeHead ⟨0, ConnectionType.init, [68]⟩
        ⟨Version.http11, 200, [(HeaderName.contentLength, [53])]⟩
        ResponseBodySize.stream []).err = Option.none ∧
    (encodeHead ⟨0, ConnectionType.init, [68]⟩
        ⟨Version.http11, 200, [(HeaderName.contentLength, [53])]⟩
        ResponseBodySize.stream []).buf =
      [] ++ encodeVersionStatusReason Version.http11 200
          ++ renderHeaders (⟨0, ConnectionType.init, [68]⟩ : Context).isForceClose
              [(HeaderName.contentLength, [53])]
          ++ closeSeg (⟨0, ConnectionType.init, [68]⟩ : Context).isForceClose
          ++ (if ([(HeaderName.contentLength, [53])]).any isDateName then crlf
              else dateSeg ⟨0, ConnectionType.init, [68]⟩) ∧
    ∀ h ∈ [(HeaderName.contentLength, [53])], isFramingName h = true →
      List.IsInfix (renderHeader h)
        (encodeHead ⟨0, ConnectionType.init, [68]⟩
          ⟨Version.http11, 200, [(HeaderName.contentLength, [53])]⟩
          ResponseBodySize.stream []).buf) :=
  ⟨by decide, by decide, by decide,
    c10_explicit_framing_precedence ⟨0, ConnectionType.init, [68]⟩
      ⟨Version.http11, 200, [(HeaderName.contentLength, [53])]⟩
      ResponseBodySize.stream [] (by decide) (by decide) (by decide)⟩

end H1
